import Mathlib

/-!
Verification of the gps-to-obj geometric pipeline (gps_track.py, gps_to_obj.py,
main.py): data model, smoothing filter, planar projection, cross-section
generation and mesh indexing, embedded shallowly with exact rational arithmetic
in place of floating point; the external geodesic adapter (pyproj Geod) and the
trigonometric primitives are abstracted as a model parameter.
-/

/-- A GPS point: latitude and longitude in degrees, elevation in meters
(gps_track.py, class GPSPoint). -/
structure GPSPoint where
  latitude : ℚ
  longitude : ℚ
  elevation : ℚ
deriving DecidableEq, Repr

/-- One continuous run of GPS points (gps_track.py, class GPSTrackSegment). -/
structure GPSTrackSegment where
  points : List GPSPoint
deriving DecidableEq, Repr

/-- A GPS track: a list of segments (gps_track.py, class GPSTrack). -/
structure GPSTrack where
  segments : List GPSTrackSegment
deriving DecidableEq, Repr

/-- Abstraction of the external numeric primitives the core consumes:
`inv` is pyproj's `geod.inv` restricted to the components the code uses
(forward bearing in degrees, distance in meters), and `radians`, `sin`, `cos`
stand for the corresponding `math` functions. The pipeline uses them as
opaque-to-the-logic functions; no trigonometric identity is assumed. -/
structure GeoModel where
  inv : GPSPoint → GPSPoint → ℚ × ℚ
  radians : ℚ → ℚ
  sin : ℚ → ℚ
  cos : ℚ → ℚ

/-- gps_track.py, `GPSPoint.angle_and_distance_to`: returns
`(radians (-90 - bearing), distance)` where `(bearing, distance)` comes from
the geodesic adapter. -/
def angle_and_distance_to (M : GeoModel) (p q : GPSPoint) : ℚ × ℚ :=
  (M.radians (-90 - (M.inv p q).1), (M.inv p q).2)

/-- gps_to_obj.py, `move_point`: polar step from a planar point. -/
def move_point (M : GeoModel) (point : ℚ × ℚ) (angle distance : ℚ) : ℚ × ℚ :=
  (point.1 + M.sin angle * distance, point.2 + M.cos angle * distance)

/-- gps_to_obj.py, `GPSTrackConfig` with its field defaults. -/
structure GPSTrackConfig where
  elevation_multiplier : ℚ := 1
  smoothing_interval : ℚ := 10
  base_height : ℚ := 1
  path_width : ℚ := 5
deriving DecidableEq, Repr

/-- itertools.pairwise: consecutive pairs of a list. -/
def pairwiseList {α : Type} : List α → List (α × α)
  | [] => []
  | [_] => []
  | a :: b :: rest => (a, b) :: pairwiseList (b :: rest)

/-- The loop body of `filter_by_smoothing_interval` (gps_track.py): walk the
remaining points, keeping a point exactly when its distance to the last kept
point strictly exceeds the threshold. -/
def smoothAux (M : GeoModel) (d : ℚ) (last : GPSPoint) :
    List GPSPoint → List GPSPoint
  | [] => []
  | q :: qs =>
    if d < (angle_and_distance_to M last q).2 then
      q :: smoothAux M d q qs
    else
      smoothAux M d last qs

/-- gps_track.py, `GPSTrackSegment.filter_by_smoothing_interval`: starts from
`points[0]` (an IndexError — `none` — on an empty segment), then keeps each
subsequent point whose distance to the last kept point exceeds the
threshold. -/
def filter_by_smoothing_interval (M : GeoModel) (d : ℚ)
    (s : GPSTrackSegment) : Option GPSTrackSegment :=
  match s.points with
  | [] => none
  | p :: rest => some ⟨p :: smoothAux M d p rest⟩

/-- Python's `min` over a list of rationals: ValueError — `none` — on empty. -/
def minQ : List ℚ → Option ℚ
  | [] => none
  | x :: xs => some (xs.foldl min x)

/-- gps_track.py, `GPSTrackSegment.min_elevation`. -/
def GPSTrackSegment.min_elevation (s : GPSTrackSegment) : Option ℚ :=
  minQ (s.points.map GPSPoint.elevation)

/-- Evaluate `f` on every element in order, failing as soon as one evaluation
fails (the behavior of a Python generator expression whose body may raise). -/
def mapOptionAll {α β : Type} (f : α → Option β) : List α → Option (List β)
  | [] => some []
  | a :: as => do
    let b ← f a
    let bs ← mapOptionAll f as
    pure (b :: bs)

/-- gps_track.py, `GPSTrack.min_elevation`: minimum over all segments of the
per-segment minimum (failing when any segment is empty or there are none). -/
def GPSTrack.min_elevation (t : GPSTrack) : Option ℚ := do
  let ms ← mapOptionAll GPSTrackSegment.min_elevation t.segments
  minQ ms

/-- gps_track.py, `GPSTrack.__len__`: total point count over all segments. -/
def GPSTrack.len (t : GPSTrack) : ℕ :=
  (t.segments.map (fun s => s.points.length)).sum

/-- gps_to_obj.py, `GPSTrackToOBJ._get_vertices_for_point`: the rectangular
cross-section of 4 vertices at a planar location. -/
def _get_vertices_for_point (cfg : GPSTrackConfig) (M : GeoModel)
    (location : ℚ × ℚ) (angle elevation : ℚ) : List (ℚ × ℚ × ℚ) :=
  let x := location.1
  let y := location.2
  let half_width := cfg.path_width / 2
  let dx := M.cos angle * half_width
  let dy := M.sin angle * half_width * (-1)
  [(x + dx, y + dy, 0),
   (x + dx, y + dy, elevation),
   (x - dx, y - dy, elevation),
   (x - dx, y - dy, 0)]

/-- gps_to_obj.py, `GPSTrackToOBJ._get_vertices_for_segment`: one cross-section
per consecutive pair of points, attached at the pair's first point, located by
projecting from the global origin. -/
def _get_vertices_for_segment (cfg : GPSTrackConfig) (M : GeoModel)
    (segment : GPSTrackSegment) (global_origin : GPSPoint)
    (min_elevation : ℚ) : List (ℚ × ℚ × ℚ) :=
  (pairwiseList segment.points).flatMap fun pq =>
    let angle := (angle_and_distance_to M pq.1 pq.2).1
    let elevation := cfg.base_height +
      (pq.1.elevation - min_elevation) * cfg.elevation_multiplier
    let ad := angle_and_distance_to M global_origin pq.1
    let location := move_point M (0, 0) ad.1 ad.2
    _get_vertices_for_point cfg M location angle elevation

/-- gps_to_obj.py, `GPSTrackToOBJ._get_polygons_for_vertices`: the cap face
`[1,2,3,4]`, the side-face loop over `range(0, vertex_count - 8, 4)` and
`j` in `range(1, 5)`, the closing cap, all shifted by the segment offset. -/
def _get_polygons_for_vertices (vertex_count segment_offset : ℕ) :
    List (List ℤ) :=
  let sides : List (List ℤ) :=
    (List.range ((vertex_count - 8 + 3) / 4)).flatMap fun k =>
      ([1, 2, 3, 4] : List ℤ).map fun j =>
        let i : ℤ := 4 * k
        [i + (j + 1) % 4, i + j, i + 4 + j, i + 4 + (j + 1) % 4]
  (([([1, 2, 3, 4] : List ℤ)] ++ sides) ++
      [[(vertex_count : ℤ) - 3, (vertex_count : ℤ) - 2,
        (vertex_count : ℤ) - 1, (vertex_count : ℤ)]]).map
    fun face => face.map fun x => x + (segment_offset : ℤ)

/-- write_obj_file.py, `ObjFile`: the accumulated mesh buffer handed to the
serialization sink. -/
structure ObjFile where
  vertices : List (ℚ × ℚ × ℚ)
  polygons : List (List ℤ)
deriving DecidableEq, Repr

/-- One iteration of the segment loop in `GPSTrackToOBJ.run`: smooth the
segment, append its vertices and its polygons (at the running offset), and
advance the offset by the segment's vertex count. -/
def runStep (M : GeoModel) (cfg : GPSTrackConfig)
    (global_origin : GPSPoint) (min_elevation : ℚ)
    (acc : ℕ × ObjFile) (segment : GPSTrackSegment) : Option (ℕ × ObjFile) := do
  let filtered ← filter_by_smoothing_interval M cfg.smoothing_interval segment
  let verts := _get_vertices_for_segment cfg M filtered global_origin
    min_elevation
  let polys := _get_polygons_for_vertices verts.length acc.1
  pure (acc.1 + verts.length,
    ⟨acc.2.vertices ++ verts, acc.2.polygons ++ polys⟩)

/-- gps_to_obj.py, `GPSTrackToOBJ.run`: fixes the global origin at the first
point of the first segment, computes the track-wide minimum elevation, folds
the segment loop, and returns the mesh handed to the OBJ sink (`none` models
an uncaught Python exception; `some` means the output file is written). -/
def run (M : GeoModel) (cfg : GPSTrackConfig) (t : GPSTrack) :
    Option ObjFile := do
  let s0 ← t.segments.head?
  let global_origin ← s0.points.head?
  let min_elevation ← t.min_elevation
  let r ← t.segments.foldlM (runStep M cfg global_origin min_elevation)
    (0, ObjFile.mk [] [])
  pure r.2

/-- Modelled from the spec: a concrete instance of the external Geodesic
Adapter interface (spec §2, §6 — pyproj `Geod(ellps="WGS84").inv` is outside
this repository). It returns a bearing and a nonnegative distance that is zero
exactly on identical coordinates, as any standard ellipsoidal geodesy model
does; the trigonometric fields are arbitrary total functions. Used only to
instantiate theorems at concrete inputs. -/
def taxiGeod : GeoModel where
  inv := fun p q =>
    (0, |q.latitude - p.latitude| + |q.longitude - p.longitude|)
  radians := fun x => x
  sin := fun _ => 0
  cos := fun _ => 1

/-- The first components of the consecutive pairs of a point list: exactly the
points that receive a cross-section in `_get_vertices_for_segment` (the last
point of a segment contributes none). -/
def fromPoints (pts : List GPSPoint) : List GPSPoint :=
  (pairwiseList pts).map Prod.fst

/-- The points of a track that actually generate cross-sections during a run:
for each segment, the from-points of its smoothed version. -/
def includedFromPoints (M : GeoModel) (d : ℚ) (t : GPSTrack) :
    List GPSPoint :=
  t.segments.flatMap fun s =>
    match filter_by_smoothing_interval M d s with
    | none => []
    | some f => fromPoints f.points

/-- The elevation formula of `_get_vertices_for_segment`:
`base_height + (pointElevation - trackMinElevation) * elevation_multiplier`. -/
def elevationOf (cfg : GPSTrackConfig) (min_elevation : ℚ)
    (p : GPSPoint) : ℚ :=
  cfg.base_height + (p.elevation - min_elevation) * cfg.elevation_multiplier

/-- All computed elevations of one conversion run, one per cross-section. -/
def trackElevations (M : GeoModel) (cfg : GPSTrackConfig) (t : GPSTrack)
    (min_elevation : ℚ) : List ℚ :=
  (includedFromPoints M cfg.smoothing_interval t).map
    (elevationOf cfg min_elevation)

/-- The cyclically consecutive index pairs of a face. -/
def edgesOfFace (f : List ℤ) : List (ℤ × ℤ) :=
  match f with
  | [] => []
  | a :: _ => f.zip (f.tail ++ [a])

/-- How many faces of a mesh contain the undirected edge `e`. -/
def countFacesWithEdge (polys : List (List ℤ)) (e : ℤ × ℤ) : ℕ :=
  (polys.filter fun f =>
    (edgesOfFace f).any fun pr =>
      (pr.1 == e.1 && pr.2 == e.2) || (pr.1 == e.2 && pr.2 == e.1)).length

/-- All indices of a face lie in the 1-based vertex range of the segment that
emitted it: `segment_offset + 1 .. segment_offset + vertex_count`. -/
def faceInRange (segment_offset vertex_count : ℕ) (face : List ℤ) : Prop :=
  ∀ idx ∈ face, (segment_offset : ℤ) + 1 ≤ idx ∧
    idx ≤ (segment_offset : ℤ) + (vertex_count : ℤ)

instance (o c : ℕ) (f : List ℤ) : Decidable (faceInRange o c f) := by
  unfold faceInRange; infer_instance

/-! ### Helper lemmas about the smoothing filter -/

theorem smoothAux_sublist (M : GeoModel) (d : ℚ) :
    ∀ (l : List GPSPoint) (last : GPSPoint),
      (smoothAux M d last l).Sublist l := by
  intro l
  induction l with
  | nil => intro last; simp [smoothAux]
  | cons q qs ih =>
    intro last
    simp only [smoothAux]
    split
    · exact (ih q).cons₂ q
    · exact (ih last).cons q

theorem chain_smoothAux (M : GeoModel) (d : ℚ) :
    ∀ (l : List GPSPoint) (last : GPSPoint),
      List.Chain (fun a b => d < (angle_and_distance_to M a b).2) last
        (smoothAux M d last l) := by
  intro l
  induction l with
  | nil => intro last; simp [smoothAux]
  | cons q qs ih =>
    intro last
    simp only [smoothAux]
    split
    · exact List.Chain.cons (by assumption) (ih q)
    · exact ih last

theorem smoothAux_keeps_all (M : GeoModel)
    (hnn : ∀ p q : GPSPoint, 0 ≤ (M.inv p q).2) (d : ℚ) (hd : d < 0) :
    ∀ (l : List GPSPoint) (last : GPSPoint), smoothAux M d last l = l := by
  intro l
  induction l with
  | nil => intro last; simp [smoothAux]
  | cons q qs ih =>
    intro last
    have : d < (angle_and_distance_to M last q).2 :=
      lt_of_lt_of_le hd (hnn last q)
    simp [smoothAux, this, ih q]

/-! ### Helper lemmas about minima -/

theorem foldl_min_le (l : List ℚ) : ∀ a : ℚ, l.foldl min a ≤ a := by
  induction l with
  | nil => intro a; exact le_refl a
  | cons x xs ih =>
    intro a
    exact le_trans (ih (min a x)) (min_le_left a x)

theorem foldl_min_le_of_mem (l : List ℚ) :
    ∀ (a x : ℚ), x ∈ l → l.foldl min a ≤ x := by
  induction l with
  | nil => intro a x hx; cases hx
  | cons y ys ih =>
    intro a x hx
    rcases List.mem_cons.mp hx with h | h
    · subst h
      exact le_trans (foldl_min_le ys (min a x)) (min_le_right a x)
    · exact ih (min a y) x h

theorem foldl_min_choice (l : List ℚ) :
    ∀ a : ℚ, l.foldl min a = a ∨ l.foldl min a ∈ l := by
  induction l with
  | nil => intro a; exact Or.inl rfl
  | cons x xs ih =>
    intro a
    rcases ih (min a x) with h | h
    · rcases min_choice a x with hm | hm
      · exact Or.inl (h.trans hm)
      · exact Or.inr (List.mem_cons.mpr (Or.inl (h.trans hm)))
    · exact Or.inr (List.mem_cons.mpr (Or.inr h))

theorem minQ_eq_some_iff (l : List ℚ) (m : ℚ) :
    minQ l = some m ↔ m ∈ l ∧ ∀ x ∈ l, m ≤ x := by
  cases l with
  | nil => simp [minQ]
  | cons x xs =>
    simp only [minQ, Option.some.injEq]
    constructor
    · rintro rfl
      refine ⟨?_, ?_⟩
      · rcases foldl_min_choice xs x with h | h
        · exact List.mem_cons.mpr (Or.inl h)
        · exact List.mem_cons.mpr (Or.inr h)
      · intro y hy
        rcases List.mem_cons.mp hy with h | h
        · subst h; exact foldl_min_le xs y
        · exact foldl_min_le_of_mem xs x y h
    · rintro ⟨hm, hle⟩
      have h1 : xs.foldl min x ≤ m := by
        rcases List.mem_cons.mp hm with h | h
        · subst h; exact foldl_min_le xs m
        · exact foldl_min_le_of_mem xs x m h
      have h2 : m ≤ xs.foldl min x := by
        rcases foldl_min_choice xs x with h | h
        · rw [h]; exact hle x (List.mem_cons.mpr (Or.inl rfl))
        · exact hle _ (List.mem_cons.mpr (Or.inr h))
      exact le_antisymm h1 h2

/-! ### Helper lemmas about `mapM` over `Option` and track minima -/

theorem mapOptionAll_eq_none_of_mem {α β : Type} (f : α → Option β) :
    ∀ (l : List α) (x : α), x ∈ l → f x = none → mapOptionAll f l = none := by
  intro l
  induction l with
  | nil => intro x hx; cases hx
  | cons y ys ih =>
    intro x hx hf
    rcases List.mem_cons.mp hx with h | h
    · subst h; simp [mapOptionAll, hf]
    · cases hfy : f y with
      | none => simp [mapOptionAll, hfy]
      | some b => simp [mapOptionAll, hfy, ih x h hf]

theorem mapOptionAll_some_forall {α β : Type} (f : α → Option β) :
    ∀ (l : List α) (ys : List β), mapOptionAll f l = some ys →
      ∀ x ∈ l, ∃ y, f x = some y ∧ y ∈ ys := by
  intro l
  induction l with
  | nil => intro ys _ x hx; cases hx
  | cons a as ih =>
    intro ys h x hx
    cases hfa : f a with
    | none => simp [mapOptionAll, hfa] at h
    | some b =>
      cases has : mapOptionAll f as with
      | none => simp [mapOptionAll, hfa, has] at h
      | some bs =>
        simp only [mapOptionAll, hfa, has, Option.bind_some,
          Option.some_bind, Option.pure_def, Option.some.injEq,
          Option.bind_eq_bind] at h
        subst h
        rcases List.mem_cons.mp hx with h | h
        · subst h
          exact ⟨b, hfa, List.mem_cons.mpr (Or.inl rfl)⟩
        · rcases ih bs has x h with ⟨y, hy, hybs⟩
          exact ⟨y, hy, List.mem_cons.mpr (Or.inr hybs)⟩

theorem mapOptionAll_isSome {α β : Type} (f : α → Option β) :
    ∀ l : List α, (∀ x ∈ l, (f x).isSome) →
      ∃ ys, mapOptionAll f l = some ys ∧ ys.length = l.length := by
  intro l
  induction l with
  | nil => intro _; exact ⟨[], rfl, rfl⟩
  | cons a as ih =>
    intro h
    rcases Option.isSome_iff_exists.mp
      (h a (List.mem_cons.mpr (Or.inl rfl))) with ⟨b, hb⟩
    rcases ih (fun x hx => h x (List.mem_cons.mpr (Or.inr hx))) with
      ⟨bs, hbs, hlen⟩
    refine ⟨b :: bs, ?_, by simp [hlen]⟩
    simp [mapOptionAll, hb, hbs]

theorem min_elevation_le (t : GPSTrack) (m : ℚ)
    (h : t.min_elevation = some m) :
    ∀ s ∈ t.segments, ∀ p ∈ s.points, m ≤ p.elevation := by
  intro s hs p hp
  unfold GPSTrack.min_elevation at h
  cases hms : mapOptionAll GPSTrackSegment.min_elevation t.segments with
  | none => simp [hms] at h
  | some ms =>
    simp only [hms, Option.bind_eq_bind, Option.bind_some] at h
    rcases mapOptionAll_some_forall _ _ _ hms s hs with ⟨v, hv, hvms⟩
    have hmv : m ≤ v := ((minQ_eq_some_iff ms m).mp h).2 v hvms
    have hvp : v ≤ p.elevation :=
      ((minQ_eq_some_iff _ v).mp hv).2 p.elevation
        (List.mem_map_of_mem GPSPoint.elevation hp)
    exact le_trans hmv hvp

/-! ### Helper lemmas about pairwise pairs, filtering and lengths -/

theorem pairwiseList_mem {α : Type} :
    ∀ (l : List α) (pq : α × α), pq ∈ pairwiseList l →
      pq.1 ∈ l ∧ pq.2 ∈ l := by
  intro l
  induction l with
  | nil => intro pq h; cases h
  | cons a rest ih =>
    intro pq h
    cases rest with
    | nil => cases h
    | cons b rest2 =>
      simp only [pairwiseList] at h
      rcases List.mem_cons.mp h with h | h
      · subst h
        exact ⟨List.mem_cons.mpr (Or.inl rfl),
          List.mem_cons.mpr (Or.inr (List.mem_cons.mpr (Or.inl rfl)))⟩
      · rcases ih pq h with ⟨h1, h2⟩
        exact ⟨List.mem_cons.mpr (Or.inr h1), List.mem_cons.mpr (Or.inr h2)⟩

theorem filter_points_sublist (M : GeoModel) (d : ℚ)
    (s f : GPSTrackSegment)
    (h : filter_by_smoothing_interval M d s = some f) :
    f.points.Sublist s.points := by
  unfold filter_by_smoothing_interval at h
  cases hp : s.points with
  | nil => rw [hp] at h; cases h
  | cons p rest =>
    rw [hp] at h
    cases h
    exact (smoothAux_sublist M d rest p).cons₂ p

theorem includedFromPoints_mem (M : GeoModel) (d : ℚ) (t : GPSTrack)
    (p : GPSPoint) (h : p ∈ includedFromPoints M d t) :
    ∃ s ∈ t.segments, p ∈ s.points := by
  unfold includedFromPoints at h
  rcases List.mem_flatMap.mp h with ⟨s, hs, hp⟩
  refine ⟨s, hs, ?_⟩
  cases hf : filter_by_smoothing_interval M d s with
  | none => rw [hf] at hp; cases hp
  | some f =>
    rw [hf] at hp
    unfold fromPoints at hp
    rcases List.mem_map.mp hp with ⟨pq, hpq, hfst⟩
    have h1 := (pairwiseList_mem f.points pq hpq).1
    rw [hfst] at h1
    exact (filter_points_sublist M d s f hf).mem h1

theorem flatMap_const_length {α β : Type} (f : α → List β) (n : ℕ)
    (hf : ∀ a, (f a).length = n) :
    ∀ l : List α, (l.flatMap f).length = l.length * n := by
  intro l
  induction l with
  | nil => simp
  | cons a as ih =>
    simp [List.flatMap_cons, ih, hf a, Nat.succ_mul, Nat.add_comm]

/-! ### Claim theorems -/

/-- C7: for every non-empty segment S and every threshold d ≥ 0, the smoothing
filter succeeds and returns an order-preserving subsequence of S that starts
with S[0], and every pair of adjacent kept points is at geodesic distance
strictly greater than d. -/
theorem smoothing_subsequence_spacing :
    ∀ (M : GeoModel) (d : ℚ) (s : GPSTrackSegment),
      s.points ≠ [] → 0 ≤ d →
      ∃ out : List GPSPoint,
        filter_by_smoothing_interval M d s = some ⟨out⟩ ∧
        out.Sublist s.points ∧
        out.head? = s.points.head? ∧
        List.Chain' (fun a b => d < (angle_and_distance_to M a b).2) out := by
  intro M d s hne _
  cases hps : s.points with
  | nil => exact absurd hps hne
  | cons p rest =>
    refine ⟨p :: smoothAux M d p rest, ?_, ?_, ?_, ?_⟩
    · simp [filter_by_smoothing_interval, hps]
    · exact (smoothAux_sublist M d rest p).cons₂ p
    · rfl
    · exact chain_smoothAux M d rest p

/-- Witness for C7: the filter applied at threshold 0 to a concrete two-point
segment. -/
theorem smoothing_subsequence_spacing_witness :
    ∃ out : List GPSPoint,
      filter_by_smoothing_interval taxiGeod 0
          ⟨[⟨0, 0, 0⟩, ⟨0, 1, 0⟩]⟩ = some ⟨out⟩ ∧
      out.Sublist [⟨0, 0, 0⟩, ⟨0, 1, 0⟩] ∧
      out.head? = ([⟨0, 0, 0⟩, ⟨0, 1, 0⟩] : List GPSPoint).head? ∧
      List.Chain' (fun a b => (0 : ℚ) < (angle_and_distance_to taxiGeod a b).2)
        out :=
  smoothing_subsequence_spacing taxiGeod 0 ⟨[⟨0, 0, 0⟩, ⟨0, 1, 0⟩]⟩
    (by simp) (le_refl 0)

/-- C5 counterexample: at threshold 0 (which is ≤ 0) a consecutive duplicate
point — geodesic distance 0 to the last kept point — is dropped, so not every
input point is kept. -/
theorem smoothing_zero_threshold_drops_duplicate :
    (0 : ℚ) ≤ 0 ∧
    filter_by_smoothing_interval taxiGeod 0
        ⟨[⟨0, 0, 0⟩, ⟨0, 0, 0⟩]⟩ = some ⟨[⟨0, 0, 0⟩]⟩ ∧
    (⟨[⟨0, 0, 0⟩]⟩ : GPSTrackSegment) ≠ ⟨[⟨0, 0, 0⟩, ⟨0, 0, 0⟩]⟩ := by
  refine ⟨le_refl 0, ?_, by simp⟩
  norm_num [filter_by_smoothing_interval, smoothAux, angle_and_distance_to,
    taxiGeod]

/-- C5 (amended): for every non-empty segment, a strictly negative threshold
keeps every input point (given the adapter's distances are nonnegative), and at
threshold 0 a point at geodesic distance exactly 0 from the last kept point is
dropped while the rest of the computation proceeds unchanged; in both cases the
filter is total. -/
theorem smoothing_nonpositive_threshold_amended :
    (∀ M : GeoModel, (∀ p q : GPSPoint, 0 ≤ (M.inv p q).2) →
      ∀ d : ℚ, d < 0 → ∀ (p : GPSPoint) (rest : List GPSPoint),
        filter_by_smoothing_interval M d ⟨p :: rest⟩ = some ⟨p :: rest⟩) ∧
    (∀ (M : GeoModel) (p q : GPSPoint) (rest : List GPSPoint),
      (M.inv p q).2 = 0 →
        filter_by_smoothing_interval M 0 ⟨p :: q :: rest⟩ =
          filter_by_smoothing_interval M 0 ⟨p :: rest⟩) := by
  constructor
  · intro M hnn d hd p rest
    simp [filter_by_smoothing_interval, smoothAux_keeps_all M hnn d hd]
  · intro M p q rest h
    simp [filter_by_smoothing_interval, smoothAux, angle_and_distance_to, h]

/-- Witness for the amended C5: a strictly negative threshold keeps both points
of a concrete segment. -/
theorem smoothing_nonpositive_threshold_amended_witness :
    filter_by_smoothing_interval taxiGeod (-1)
        ⟨[⟨0, 0, 0⟩, ⟨0, 1, 0⟩]⟩ = some ⟨[⟨0, 0, 0⟩, ⟨0, 1, 0⟩]⟩ :=
  smoothing_nonpositive_threshold_amended.1 taxiGeod
    (fun _ _ => add_nonneg (abs_nonneg _) (abs_nonneg _)) (-1) (by norm_num)
    ⟨0, 0, 0⟩ [⟨0, 1, 0⟩]

/-- C10: the smoothing filter fails on an empty segment (it indexes the first
element of an empty list); a run fails whenever some segment of the track is
empty; and the caller's guard — total point count over all segments equal to
zero — does not rule such tracks out: a concrete track with 2 total points and
an empty second segment passes the guard yet every run on it fails. -/
theorem smoothing_empty_segment_guard :
    (∀ (M : GeoModel) (d : ℚ),
      filter_by_smoothing_interval M d ⟨[]⟩ = none) ∧
    (∀ (M : GeoModel) (cfg : GPSTrackConfig) (t : GPSTrack),
      (∃ s ∈ t.segments, s.points = []) → run M cfg t = none) ∧
    (GPSTrack.len ⟨[⟨[⟨0, 0, 0⟩, ⟨0, 1, 0⟩]⟩, ⟨[]⟩]⟩ ≠ 0 ∧
      ∀ (M : GeoModel) (cfg : GPSTrackConfig),
        run M cfg ⟨[⟨[⟨0, 0, 0⟩, ⟨0, 1, 0⟩]⟩, ⟨[]⟩]⟩ = none) := by
  have hrun : ∀ (M : GeoModel) (cfg : GPSTrackConfig) (t : GPSTrack),
      (∃ s ∈ t.segments, s.points = []) → run M cfg t = none := by
    rintro M cfg t ⟨s, hs, hempty⟩
    have hseg : s.min_elevation = none := by
      simp [GPSTrackSegment.min_elevation, hempty, minQ]
    have hme : t.min_elevation = none := by
      simp [GPSTrack.min_elevation,
        mapOptionAll_eq_none_of_mem GPSTrackSegment.min_elevation
          t.segments s hs hseg]
    cases h0 : t.segments.head? with
    | none => simp [run, h0]
    | some s0 =>
      cases h1 : s0.points.head? with
      | none => simp [run, h0, h1]
      | some p0 => simp [run, h0, h1, hme]
  refine ⟨fun M d => rfl, hrun, by decide, fun M cfg => ?_⟩
  exact hrun M cfg _ ⟨⟨[]⟩, by simp, rfl⟩

/-- Witness for C10: a run on a track whose only segment is empty fails. -/
theorem smoothing_empty_segment_guard_witness :
    run taxiGeod {} ⟨[⟨[]⟩]⟩ = none :=
  smoothing_empty_segment_guard.2.1 taxiGeod {} ⟨[⟨[]⟩]⟩ ⟨⟨[]⟩, by simp, rfl⟩

/-- C9: every point processed by the pipeline is placed at local planar
coordinates `x = sin θ · d`, `y = cos θ · d`, where `(rawBearing, d)` is the
adapter's bearing/distance from the global origin to the point and
`θ = radians (-90 - rawBearing)`; the cross-section at each consecutive pair is
generated exactly at that location. -/
theorem projection_polar_formula :
    ∀ (M : GeoModel) (cfg : GPSTrackConfig) (seg : GPSTrackSegment)
      (origin : GPSPoint) (minE : ℚ),
      _get_vertices_for_segment cfg M seg origin minE =
        (pairwiseList seg.points).flatMap fun pq =>
          _get_vertices_for_point cfg M
            (M.sin (M.radians (-90 - (M.inv origin pq.1).1)) *
                (M.inv origin pq.1).2,
              M.cos (M.radians (-90 - (M.inv origin pq.1).1)) *
                (M.inv origin pq.1).2)
            (angle_and_distance_to M pq.1 pq.2).1
            (cfg.base_height +
              (pq.1.elevation - minE) * cfg.elevation_multiplier) := by
  intro M cfg seg origin minE
  unfold _get_vertices_for_segment move_point angle_and_distance_to
  simp [zero_add]

theorem foldlM_runStep_isSome (M : GeoModel) (cfg : GPSTrackConfig)
    (origin : GPSPoint) (minE : ℚ) :
    ∀ (segs : List GPSTrackSegment) (acc : ℕ × ObjFile),
      (∀ s ∈ segs, s.points ≠ []) →
      ∃ r, segs.foldlM (runStep M cfg origin minE) acc = some r := by
  intro segs
  induction segs with
  | nil => intro acc _; exact ⟨acc, rfl⟩
  | cons s ss ih =>
    intro acc h
    have hs : s.points ≠ [] := h s (List.mem_cons.mpr (Or.inl rfl))
    obtain ⟨f, hf⟩ : ∃ f,
        filter_by_smoothing_interval M cfg.smoothing_interval s = some f := by
      cases hp : s.points with
      | nil => exact absurd hp hs
      | cons p rest =>
        exact ⟨⟨p :: smoothAux M cfg.smoothing_interval p rest⟩,
          by simp [filter_by_smoothing_interval, hp]⟩
    rcases ih _ (fun x hx => h x (List.mem_cons.mpr (Or.inr hx))) with ⟨r, hr⟩
    refine ⟨r, ?_⟩
    rw [List.foldlM_cons]
    simpa [runStep, hf] using hr

/-- C4 (amended): no configuration validation is performed — for every
configuration, including one with non-positive pathWidth, a conversion run on
any structurally valid track (non-empty segment list, all segments non-empty)
proceeds through geometry computation and produces a mesh. -/
theorem run_accepts_any_config :
    ∀ (M : GeoModel) (cfg : GPSTrackConfig) (t : GPSTrack),
      t.segments ≠ [] → (∀ s ∈ t.segments, s.points ≠ []) →
      ∃ obj, run M cfg t = some obj := by
  intro M cfg t hseg hpts
  cases hsegs : t.segments with
  | nil => exact absurd hsegs hseg
  | cons s0 srest =>
    have hs0 : s0 ∈ t.segments := by rw [hsegs]; exact List.mem_cons_self _ _
    cases hp0 : s0.points with
    | nil => exact absurd hp0 (hpts s0 hs0)
    | cons p0 prest =>
      have hminseg : ∀ s ∈ t.segments, (s.min_elevation).isSome := by
        intro s hs
        cases hp : s.points with
        | nil => exact absurd hp (hpts s hs)
        | cons p rest =>
          simp [GPSTrackSegment.min_elevation, hp, minQ]
      rcases mapOptionAll_isSome _ t.segments hminseg with ⟨ms, hms, hlen⟩
      obtain ⟨m, hm⟩ : ∃ m, minQ ms = some m := by
        cases hmsc : ms with
        | nil =>
          rw [hmsc] at hlen
          rw [hsegs] at hlen
          cases hlen
        | cons a as => exact ⟨_, rfl⟩
      have hme : t.min_elevation = some m := by
        simp [GPSTrack.min_elevation, hms, hm]
      rcases foldlM_runStep_isSome M cfg p0 m t.segments
        (0, ObjFile.mk [] []) hpts with ⟨r, hr⟩
      refine ⟨r.2, ?_⟩
      rw [hsegs] at hr
      simp only [run, hsegs, List.head?_cons, hp0, hme,
        Option.bind_eq_bind, Option.some_bind]
      rw [hr]
      rfl

/-- Witness for the amended C4: a run with pathWidth = -1 on a concrete
two-point track succeeds. -/
theorem run_accepts_any_config_witness :
    ∃ obj, run taxiGeod ⟨1, 0, 1, -1⟩
        ⟨[⟨[⟨0, 0, 0⟩, ⟨0, 1, 0⟩]⟩]⟩ = some obj :=
  run_accepts_any_config taxiGeod ⟨1, 0, 1, -1⟩
    ⟨[⟨[⟨0, 0, 0⟩, ⟨0, 1, 0⟩]⟩]⟩ (by simp)
    (fun s hs => by
      simp only [List.mem_singleton] at hs
      subst hs
      simp)

/-- C4 counterexample: a configuration with non-positive pathWidth is accepted
and the conversion run computes geometry and produces a mesh instead of
failing fast. -/
theorem config_no_fail_fast_counterexample :
    (⟨1, 0, 1, -1⟩ : GPSTrackConfig).path_width ≤ 0 ∧
    run taxiGeod ⟨1, 0, 1, -1⟩ ⟨[⟨[⟨0, 0, 0⟩, ⟨0, 1, 0⟩]⟩]⟩ =
      some ⟨[(-1/2, 0, 0), (-1/2, 0, 1), (1/2, 0, 1), (1/2, 0, 0)],
            [[1, 2, 3, 4], [1, 2, 3, 4]]⟩ := by
  refine ⟨by norm_num, ?_⟩
  norm_num [run, runStep, filter_by_smoothing_interval, smoothAux,
    angle_and_distance_to, taxiGeod, GPSTrack.min_elevation, mapOptionAll,
    GPSTrackSegment.min_elevation, minQ, _get_vertices_for_segment,
    _get_vertices_for_point, pairwiseList, move_point,
    _get_polygons_for_vertices, List.flatMap]

/-- C6 (amended): every generated vertex has z-coordinate 0 or
`baseHeight + (p.elevation - trackMinElevation) * elevationMultiplier` for a
cross-section point p; with elevationMultiplier ≥ 0 every computed elevation is
at least baseHeight; and when elevationMultiplier is strictly positive, the
minimum computed elevation equals baseHeight exactly when a point attaining the
track-wide minimum elevation contributes a cross-section. (The original
"exactly when elevationMultiplier > 0 and the minimum point is included" fails
at elevationMultiplier = 0, where every computed elevation equals
baseHeight.) -/
theorem elevation_datum_amended :
    ∀ (M : GeoModel) (cfg : GPSTrackConfig) (t : GPSTrack) (minE : ℚ),
      t.min_elevation = some minE →
      ((∀ (s : GPSTrackSegment) (origin : GPSPoint) (v : ℚ × ℚ × ℚ),
          v ∈ _get_vertices_for_segment cfg M s origin minE →
          v.2.2 = 0 ∨
            ∃ p ∈ fromPoints s.points, v.2.2 = elevationOf cfg minE p) ∧
        (0 ≤ cfg.elevation_multiplier →
          ∀ e ∈ trackElevations M cfg t minE, cfg.base_height ≤ e) ∧
        (0 < cfg.elevation_multiplier →
          (minQ (trackElevations M cfg t minE) = some cfg.base_height ↔
            ∃ p ∈ includedFromPoints M cfg.smoothing_interval t,
              p.elevation = minE))) := by
  intro M cfg t minE hme
  have hb : 0 ≤ cfg.elevation_multiplier →
      ∀ e ∈ trackElevations M cfg t minE, cfg.base_height ≤ e := by
    intro hmult e he
    unfold trackElevations at he
    rcases List.mem_map.mp he with ⟨p, hp, rfl⟩
    rcases includedFromPoints_mem M cfg.smoothing_interval t p hp with
      ⟨s, hs, hps⟩
    have hle : minE ≤ p.elevation := min_elevation_le t minE hme s hs p hps
    have hnn : 0 ≤ (p.elevation - minE) * cfg.elevation_multiplier :=
      mul_nonneg (by linarith) hmult
    unfold elevationOf
    linarith
  refine ⟨?_, hb, ?_⟩
  · intro s origin v hv
    unfold _get_vertices_for_segment at hv
    rcases List.mem_flatMap.mp hv with ⟨pq, hpq, hv4⟩
    have hmem : pq.1 ∈ fromPoints s.points :=
      List.mem_map_of_mem Prod.fst hpq
    simp only [_get_vertices_for_point, List.mem_cons, List.not_mem_nil,
      or_false] at hv4
    rcases hv4 with rfl | rfl | rfl | rfl
    · exact Or.inl rfl
    · exact Or.inr ⟨pq.1, hmem, rfl⟩
    · exact Or.inr ⟨pq.1, hmem, rfl⟩
    · exact Or.inl rfl
  · intro hmult
    constructor
    · intro hmin
      rcases (minQ_eq_some_iff _ _).mp hmin with ⟨hmemb, _⟩
      unfold trackElevations at hmemb
      rcases List.mem_map.mp hmemb with ⟨p, hp, heq⟩
      refine ⟨p, hp, ?_⟩
      unfold elevationOf at heq
      have h0 : (p.elevation - minE) * cfg.elevation_multiplier = 0 := by
        linarith
      rcases mul_eq_zero.mp h0 with h1 | h1
      · linarith
      · exact absurd h1 (ne_of_gt hmult)
    · rintro ⟨p, hp, hpe⟩
      apply (minQ_eq_some_iff _ _).mpr
      refine ⟨?_, hb (le_of_lt hmult)⟩
      unfold trackElevations
      exact List.mem_map.mpr ⟨p, hp, by simp [elevationOf, hpe]⟩

/-- Witness for the amended C6: the datum equivalence evaluated on a concrete
two-point track with multiplier 1. -/
theorem elevation_datum_amended_witness :
    minQ (trackElevations taxiGeod ⟨1, 0, 1, 2⟩
        ⟨[⟨[⟨0, 0, 3⟩, ⟨0, 1, 5⟩]⟩]⟩ 3) =
      some (⟨1, 0, 1, 2⟩ : GPSTrackConfig).base_height ↔
    ∃ p ∈ includedFromPoints taxiGeod
        (⟨1, 0, 1, 2⟩ : GPSTrackConfig).smoothing_interval
        ⟨[⟨[⟨0, 0, 3⟩, ⟨0, 1, 5⟩]⟩]⟩, p.elevation = 3 :=
  (elevation_datum_amended taxiGeod ⟨1, 0, 1, 2⟩
      ⟨[⟨[⟨0, 0, 3⟩, ⟨0, 1, 5⟩]⟩]⟩ 3
      (by norm_num [GPSTrack.min_elevation, mapOptionAll,
        GPSTrackSegment.min_elevation, minQ])).2.2 (by norm_num)

/-- C6 counterexample: with elevationMultiplier = 0 the minimum computed
elevation equals baseHeight although the claimed right-hand side
("elevationMultiplier > 0 and the minimum point is included") is false, so the
claimed equivalence fails. -/
theorem elevation_datum_zero_multiplier_counterexample :
    GPSTrack.min_elevation ⟨[⟨[⟨0, 0, 5⟩, ⟨0, 1, 7⟩]⟩]⟩ = some 5 ∧
    minQ (trackElevations taxiGeod ⟨0, 0, 1, 2⟩
        ⟨[⟨[⟨0, 0, 5⟩, ⟨0, 1, 7⟩]⟩]⟩ 5) =
      some (⟨0, 0, 1, 2⟩ : GPSTrackConfig).base_height ∧
    ¬ 0 < (⟨0, 0, 1, 2⟩ : GPSTrackConfig).elevation_multiplier := by
  refine ⟨?_, ?_, by norm_num⟩
  · norm_num [GPSTrack.min_elevation, mapOptionAll,
      GPSTrackSegment.min_elevation, minQ]
  · norm_num [trackElevations, includedFromPoints, fromPoints,
      filter_by_smoothing_interval, smoothAux, angle_and_distance_to,
      taxiGeod, pairwiseList, elevationOf, minQ, List.flatMap]

/-- C1: the indexer emits `2 + 4 * ((vertex_count - 8 + 3) / 4)` faces, i.e.
`2 + 4*(N-3)` for a segment of N ≥ 3 points (`4*(N-1)` vertices) — not the
claimed `2 + 4*(N-2)`; on the spec's own scenario (3 points forming a right
angle at sea level, pathWidth 2, baseHeight 1, multiplier 1, smoothing 0) the
run yields 8 vertices but only the 2 cap faces instead of the claimed 6. -/
theorem face_count_divergence :
    (∀ vertex_count segment_offset : ℕ,
      (_get_polygons_for_vertices vertex_count segment_offset).length =
        2 + 4 * ((vertex_count - 8 + 3) / 4)) ∧
    run taxiGeod ⟨1, 0, 1, 2⟩ ⟨[⟨[⟨0, 0, 0⟩, ⟨0, 1, 0⟩, ⟨1, 1, 0⟩]⟩]⟩ =
      some ⟨[(1, 0, 0), (1, 0, 1), (-1, 0, 1), (-1, 0, 0),
             (1, 1, 0), (1, 1, 1), (-1, 1, 1), (-1, 1, 0)],
            [[1, 2, 3, 4], [5, 6, 7, 8]]⟩ := by
  constructor
  · intro vc off
    unfold _get_polygons_for_vertices
    rw [List.length_map, List.length_append, List.length_append]
    rw [flatMap_const_length _ 4 (fun a => by simp) (List.range ((vc - 8 + 3) / 4))]
    simp [List.length_range]
    omega
  · norm_num [run, runStep, filter_by_smoothing_interval, smoothAux,
      angle_and_distance_to, taxiGeod, GPSTrack.min_elevation, mapOptionAll,
      GPSTrackSegment.min_elevation, minQ, _get_vertices_for_segment,
      _get_vertices_for_point, pairwiseList, move_point,
      _get_polygons_for_vertices, List.flatMap]

/-- C2: for a segment of 4 points (12 vertices, 3 cross-sections) the emitted
face list is not a closed tube — the edge (5,6) of the middle cross-section
lies in exactly one face instead of two, the edge (3,4) of the first
cross-section lies only in its cap, and the third side face is [0,3,7,4],
which even references vertex index 0. -/
theorem closed_tube_divergence :
    _get_polygons_for_vertices 12 0 =
      [[1, 2, 3, 4], [2, 1, 5, 6], [3, 2, 6, 7], [0, 3, 7, 4], [1, 4, 8, 5],
       [9, 10, 11, 12]] ∧
    countFacesWithEdge (_get_polygons_for_vertices 12 0) (5, 6) = 1 ∧
    countFacesWithEdge (_get_polygons_for_vertices 12 0) (3, 4) = 1 := by
  refine ⟨by decide, by decide, by decide⟩

/-- C3: on a track whose only segment has a single point the run does not fail;
it produces a mesh with zero vertices and two faces, the second of which is
[-3,-2,-1,0] — indices that are not valid 1-based vertex references — and the
output file is written. -/
theorem one_point_segment_divergence :
    run taxiGeod ⟨1, 0, 1, 2⟩ ⟨[⟨[⟨0, 0, 5⟩]⟩]⟩ =
      some ⟨[], [[1, 2, 3, 4], [-3, -2, -1, 0]]⟩ := by
  norm_num [run, runStep, filter_by_smoothing_interval, smoothAux,
    angle_and_distance_to, taxiGeod, GPSTrack.min_elevation, mapOptionAll,
    GPSTrackSegment.min_elevation, minQ, _get_vertices_for_segment,
    _get_vertices_for_point, pairwiseList, move_point,
    _get_polygons_for_vertices, List.flatMap]

/-- C8: on a track of two 4-point segments (12 vertices each, offsets 0 and
12), the accumulated mesh contains the face [0,3,7,4] of the first segment
(index 0 lies below the segment's range 1..12) and the face [12,15,19,16] of
the second segment (index 12 lies below its range 13..24 and collides with the
last vertex of the first segment). -/
theorem segment_offset_range_divergence :
    (run taxiGeod ⟨1, 0, 1, 2⟩
        ⟨[⟨[⟨0, 0, 0⟩, ⟨0, 1, 0⟩, ⟨0, 2, 0⟩, ⟨0, 3, 0⟩]⟩,
          ⟨[⟨1, 0, 0⟩, ⟨1, 1, 0⟩, ⟨1, 2, 0⟩, ⟨1, 3, 0⟩]⟩]⟩).map
        (fun o => (o.vertices.length, o.polygons)) =
      some (24,
        [[1, 2, 3, 4], [2, 1, 5, 6], [3, 2, 6, 7], [0, 3, 7, 4],
         [1, 4, 8, 5], [9, 10, 11, 12],
         [13, 14, 15, 16], [14, 13, 17, 18], [15, 14, 18, 19],
         [12, 15, 19, 16], [13, 16, 20, 17], [21, 22, 23, 24]]) ∧
    ¬ faceInRange 0 12 [0, 3, 7, 4] ∧
    ¬ faceInRange 12 12 [12, 15, 19, 16] := by
  refine ⟨?_, by decide, by decide⟩
  norm_num [run, runStep, filter_by_smoothing_interval, smoothAux,
    angle_and_distance_to, taxiGeod, GPSTrack.min_elevation, mapOptionAll,
    GPSTrackSegment.min_elevation, minQ, _get_vertices_for_segment,
    _get_vertices_for_point, pairwiseList, move_point,
    _get_polygons_for_vertices, List.flatMap, List.range_succ, List.range_zero,
    List.flatten]
